import Mathlib

/-!
Verification of the multi-tenant MCP knowledge-graph server.

The embedding models the GraphStore operations of src/app.ts (the db layer:
createEntities, createRelations, createEntityObservations, add_observations,
deleteEntities, deleteRelations, deleteObservations, readGraph, searchNodes,
openNodes), the relational schema of dataplane/migrations (tables entity,
relation, entity_observation; primary key entity_pkey on (user_id, name)),
the access-control functions AuthService.canAccessTool (auth service) and
MyMCP.canAccessTool (index.ts), and the create_entities tool handler of
index.ts.  The database is a triple of row lists; a Kysely where-clause is a
list filter; the Postgres unique-key violation raised by insertInto is the
conflict branch of the insert; the ILIKE operator is modelled by an
executable pattern matcher over ASCII-lowercased characters.
-/

namespace MCP

/-- Failure classes surfaced by the store layer: the entity_pkey unique-key
violation, and any other storage-layer exception (connection failure etc.). -/
inductive GraphError where
  | conflictError
  | storageError
deriving DecidableEq, Repr

/-- A row of the entity table: (user_id, name, type); created_at is
database-generated and never read back by any operation, so it is omitted. -/
structure EntityRow where
  user_id : String
  name : String
  type : String
deriving DecidableEq, Repr

/-- A row of the relation table.  The column named from in SQL is written
from_ because from is a reserved word in Lean. -/
structure RelationRow where
  user_id : String
  from_ : String
  to_ : String
  type : String
deriving DecidableEq, Repr

/-- A row of the entity_observation table. -/
structure ObservationRow where
  user_id : String
  entity_name : String
  observation : String
deriving DecidableEq, Repr

/-- The three graph tables, each a list of rows in insertion order. -/
structure DbState where
  entities : List EntityRow := []
  relations : List RelationRow := []
  observations : List ObservationRow := []
deriving DecidableEq, Repr

/-- Input shape of create_entities: {name, entityType, observations}. -/
structure EntitySpec where
  name : String
  entityType : String
  observations : List String
deriving DecidableEq, Repr

/-- Input shape of create_relations / delete_relations. -/
structure RelationSpec where
  from_ : String
  to_ : String
  relationType : String
deriving DecidableEq, Repr

/-- Output entity shape of readGraph / openNodes: an entity hydrated with
its observation texts. -/
structure Entity where
  name : String
  entityType : String
  observations : List String
deriving DecidableEq, Repr

/-- Output relation shape of readGraph. -/
structure RelationOut where
  from_ : String
  to_ : String
  relationType : String
deriving DecidableEq, Repr

/-- The graph returned by readGraph. -/
structure Graph where
  entities : List Entity
  relations : List RelationOut
deriving DecidableEq, Repr

/-- The {success, error?} result shape shared by the store operations. -/
structure OpResult where
  success : Bool
  error : Option GraphError := none
deriving DecidableEq, Repr

/-- The result shape of add_observations, which wraps the result object of
the nested createEntityObservations call: { success: true, result }. -/
structure AddObsResult where
  success : Bool
  result : OpResult
deriving DecidableEq, Repr

/-- The result shape of searchNodes: the three match sets, returned
separately (the merged entities array built inside searchNodes is not part
of its return value). -/
structure SearchResult where
  entityNamesResult : List EntityRow
  entityObservationsResult : List ObservationRow
  entityTypesResult : List EntityRow
deriving DecidableEq, Repr

/-! ### ILIKE pattern matching

searchNodes issues where-clauses of the form column ilike '%' + query + '%'.
Postgres LIKE patterns treat % as any sequence, _ as any single character,
and backslash as an escape; ILIKE compares case-insensitively, which for the
ASCII data relevant here is matching over lowercased pattern and text. -/

/-- All suffixes of a character list, longest first (the list itself down to []). -/
def suffixes : List Char → List (List Char)
  | [] => [[]]
  | c :: s => (c :: s) :: suffixes s

/-- Postgres LIKE pattern matching over character lists: % matches any
sequence, _ matches one character, a backslash escapes the next pattern
character, any other character matches itself. -/
def likeMatch : List Char → List Char → Bool
  | [], s => s.isEmpty
  | p :: ps, s =>
    if p = '%' then
      (suffixes s).any fun t => likeMatch ps t
    else if p = '\\' then
      match ps, s with
      | p2 :: ps2, c :: s2 => c == p2 && likeMatch ps2 s2
      | _, _ => false
    else if p = '_' then
      match s with
      | [] => false
      | _ :: s2 => likeMatch ps s2
    else
      match s with
      | [] => false
      | c :: s2 => c == p && likeMatch ps s2

/-- ASCII lowercasing of a string, character by character (Postgres lower()
on the ASCII data used by this application). -/
def lowerChars (s : String) : List Char :=
  s.toList.map Char.toLower

/-- column ilike '%' + query + '%': case-insensitive LIKE with the raw query
interpolated between two % wildcards, exactly as built in searchNodes. -/
def ilikeContains (q s : String) : Bool :=
  likeMatch ('%' :: lowerChars q ++ ['%']) (lowerChars s)

/-! ### GraphStore operations (src/app.ts db layer) -/

/-- The three owner-filtered selects (where user_id = owner) that every read
operation opens with. -/
def ownerView (db : DbState) (owner : String) : DbState :=
  { entities := db.entities.filter fun e => e.user_id == owner
    relations := db.relations.filter fun r => r.user_id == owner
    observations := db.observations.filter fun o => o.user_id == owner }

/-- Does a row with this (user_id, name) pair exist in the entity table?
This is the condition under which the entity_pkey primary-key constraint
rejects an insert. -/
def entityExists (db : DbState) (owner name : String) : Bool :=
  db.entities.any fun e => e.user_id == owner && e.name == name

/-- Loop body of createEntityObservations: insert the observation rows one
by one.  failAt = some i models the storage layer throwing on the i-th
insert statement; the catch block then reports { success: false, error }
with the rows inserted so far already committed. -/
def createEntityObservationsGo (owner en : String) (failAt : Option Nat) :
    DbState → Nat → List String → OpResult × DbState
  | db, _, [] => ({ success := true }, db)
  | db, i, o :: rest =>
    if failAt = some i then
      ({ success := false, error := some .storageError }, db)
    else
      createEntityObservationsGo owner en failAt
        { db with observations := db.observations ++ [⟨owner, en, o⟩] } (i + 1) rest

/-- createEntityObservations(hyperdrive, user_id, entity_name, observations):
inserts one entity_observation row per string; its own try/catch converts a
storage failure into { success: false, error }. -/
def createEntityObservations (owner en : String) (db : DbState)
    (obs : List String) (failAt : Option Nat) : OpResult × DbState :=
  createEntityObservationsGo owner en failAt db 0 obs

/-- add_observations(hyperdrive, user_id, entity_name, observations): calls
createEntityObservations and returns { success: true, result }.  The catch
branch of add_observations is unreachable because createEntityObservations
returns its failures instead of throwing, so success is true even when the
nested result is a failure. -/
def add_observations (owner en : String) (db : DbState) (obs : List String)
    (failAt : Option Nat) : AddObsResult × DbState :=
  let r := createEntityObservations owner en db obs failAt
  ({ success := true, result := r.1 }, r.2)

/-- createEntities(hyperdrive, userId, entities): for each entity insert the
entity row (the entity_pkey constraint rejects a duplicate (user_id, name),
which the surrounding try/catch turns into { success: false, error } with
earlier inserts already committed), then insert its observation rows. -/
def createEntities (owner : String) : DbState → List EntitySpec → OpResult × DbState
  | db, [] => ({ success := true }, db)
  | db, e :: rest =>
    if entityExists db owner e.name then
      ({ success := false, error := some .conflictError }, db)
    else
      let db1 : DbState := { db with entities := db.entities ++ [⟨owner, e.name, e.entityType⟩] }
      let r := createEntityObservations owner e.name db1 e.observations none
      createEntities owner r.2 rest

/-- createRelations(hyperdrive, user_id, relations): inserts each relation
row unconditionally (the relation table has no key and no foreign keys). -/
def createRelations (owner : String) : DbState → List RelationSpec → OpResult × DbState
  | db, [] => ({ success := true }, db)
  | db, r :: rest =>
    createRelations owner
      { db with relations := db.relations ++ [⟨owner, r.from_, r.to_, r.relationType⟩] } rest

/-- deleteEntities(hyperdrive, user_id, entity_names): per name, delete from
entity where user_id = owner and name = n.  Only the entity table is touched. -/
def deleteEntities (owner : String) : DbState → List String → OpResult × DbState
  | db, [] => ({ success := true }, db)
  | db, n :: rest =>
    deleteEntities owner
      { db with entities := db.entities.filter fun e => !(e.user_id == owner && e.name == n) } rest

/-- deleteRelations(hyperdrive, user_id, relations): per relation, delete
rows matching user_id, from, to and type exactly. -/
def deleteRelations (owner : String) : DbState → List RelationSpec → OpResult × DbState
  | db, [] => ({ success := true }, db)
  | db, r :: rest =>
    deleteRelations owner
      { db with relations := db.relations.filter fun x =>
          !(x.user_id == owner && x.from_ == r.from_ && x.to_ == r.to_ && x.type == r.relationType) } rest

/-- deleteObservations(hyperdrive, user_id, entity_name, observations): per
string, delete rows matching user_id, entity_name and observation exactly. -/
def deleteObservations (owner en : String) : DbState → List String → OpResult × DbState
  | db, [] => ({ success := true }, db)
  | db, o :: rest =>
    deleteObservations owner en
      { db with observations := db.observations.filter fun x =>
          !(x.user_id == owner && x.entity_name == en && x.observation == o) } rest

/-- readGraph(hyperdrive, user_id): select all three tables filtered by
user_id, hydrate each entity with the observation texts whose entity_name
matches its name, and return { entities, relations }. -/
def readGraph (db : DbState) (owner : String) : Graph :=
  let v := ownerView db owner
  { entities := v.entities.map fun e =>
      { name := e.name
        entityType := e.type
        observations := (v.observations.filter fun o => o.entity_name == e.name).map
          fun o => o.observation }
    relations := v.relations.map fun r =>
      { from_ := r.from_, to_ := r.to_, relationType := r.type } }

/-- searchNodes(hyperdrive, user_id, search_query): three selects, each
filtered by user_id and by column ilike '%query%' on name, observation and
type respectively; the three result sets are returned separately. -/
def searchNodes (db : DbState) (owner : String) (q : String) : SearchResult :=
  let v := ownerView db owner
  { entityNamesResult := v.entities.filter fun e => ilikeContains q e.name
    entityObservationsResult := v.observations.filter fun o => ilikeContains q o.observation
    entityTypesResult := v.entities.filter fun e => ilikeContains q e.type }

/-- openNodes(hyperdrive, user_id, node_names): entities with name in the
requested set (filtered by user_id), hydrated with the matching observation
rows; absent names are simply not present in the result. -/
def openNodes (db : DbState) (owner : String) (names : List String) : List Entity :=
  let v := ownerView db owner
  let entities_db := v.entities.filter fun e => names.contains e.name
  let obs_db := v.observations.filter fun o => names.contains o.entity_name
  entities_db.map fun e =>
    { name := e.name
      entityType := e.type
      observations := (obs_db.filter fun o => o.entity_name == e.name).map
        fun o => o.observation }

/-! ### Access control (src/types.ts, auth service, src/index.ts) -/

/-- UserRole: the closed union "admin" | "user" | "readonly". -/
inductive Role where
  | admin
  | user
  | readonly
deriving DecidableEq, Repr

/-- RateLimit: declared per-tool limits (never enforced by the core). -/
structure RateLimit where
  requestsPerMinute : Nat
  requestsPerHour : Nat
  requestsPerDay : Nat
deriving DecidableEq, Repr

/-- ToolPermission: enabled flag, allowed roles, rate limits (customConfig
is optional and unused by the access logic, so it is omitted). -/
structure ToolPermission where
  enabled : Bool
  allowedRoles : List Role
  rateLimits : RateLimit
deriving DecidableEq, Repr

/-- User record (the Date fields createdAt/lastActiveAt take no part in any
modelled operation and are omitted). -/
structure User where
  id : String
  email : String
  tenantId : String
  role : Role
  permissions : List String
  isActive : Bool
deriving DecidableEq, Repr

/-- Tenant record; toolConfig is the map from tool name to ToolPermission,
modelled as an association list (settings and createdAt are omitted as they
take no part in the modelled operations). -/
structure Tenant where
  id : String
  name : String
  ownerId : String
  toolConfig : List (String × ToolPermission)
  isActive : Bool
deriving DecidableEq, Repr

/-- UserContext: the resolved user + tenant bundle for one request. -/
structure UserContext where
  user : User
  tenant : Tenant
  sessionId : String
  permissions : List String
deriving DecidableEq, Repr

/-- AuthService.canAccessTool(ctx, toolName): look up
ctx.tenant.toolConfig[toolName]; if absent or not enabled return false,
otherwise return allowedRoles.includes(role) || role === "admin". -/
def canAccessTool (ctx : UserContext) (toolName : String) : Bool :=
  match ctx.tenant.toolConfig.lookup toolName with
  | none => false
  | some cfg =>
    if !cfg.enabled then false
    else cfg.allowedRoles.contains ctx.user.role || ctx.user.role == Role.admin

/-- The props handed to the MyMCP agent by the OAuth layer; index.ts reads
props.user.id in the tool handlers and props.permissions in its own
canAccessTool. -/
structure Props where
  user : User
  permissions : List String
deriving DecidableEq, Repr

/-- MyMCP.canAccessTool(toolName) in src/index.ts: returns
this.props.permissions.includes(toolName); it does not consult the tenant
toolConfig at all. -/
def MyMCP.canAccessTool (props : Props) (toolName : String) : Bool :=
  props.permissions.contains toolName

/-- The create_entities tool handler registered by MyMCP.registerTools in
src/index.ts: it calls createEntities(env.HYPERDRIVE, this.props.user.id,
entities) directly.  No call to any access-control function precedes the
store operation (the handler only logs the user id). -/
def create_entities_handler (props : Props) (db : DbState)
    (entities : List EntitySpec) : OpResult × DbState :=
  createEntities props.user.id db entities

/-- The default toolConfig written by UserService.ensureTenantExists for a
freshly created tenant: exactly the tools add, calculate and get_user_info. -/
def defaultToolConfig : List (String × ToolPermission) :=
  [("add", { enabled := true, allowedRoles := [Role.admin, Role.user],
             rateLimits := ⟨60, 1000, 10000⟩ }),
   ("calculate", { enabled := true, allowedRoles := [Role.admin, Role.user],
                   rateLimits := ⟨30, 500, 5000⟩ }),
   ("get_user_info", { enabled := true, allowedRoles := [Role.admin, Role.user, Role.readonly],
                       rateLimits := ⟨10, 100, 1000⟩ })]

/-! ### Specification-side search definition

For the refinement claim about searchNodes, the following definition follows
the words of the specification ("case-insensitive substring match against
Entity name, Entity type, and Observation text, independently") rather than
the source, to be compared with searchNodes. -/

/-- Is q a contiguous sublist (substring) of s? -/
def isSubListOf (q : List Char) : List Char → Bool
  | [] => q.isPrefixOf []
  | c :: s => q.isPrefixOf (c :: s) || isSubListOf q s

/-- Case-insensitive literal substring test on strings. -/
def containsCI (q s : String) : Bool :=
  isSubListOf (lowerChars q) (lowerChars s)

/-- searchNodes as worded by the specification: a case-insensitive literal
substring match of the query against each of the three columns, the query
characters treated as plain text. -/
def searchNodesSpecLiteral (db : DbState) (owner : String) (q : String) : SearchResult :=
  let v := ownerView db owner
  { entityNamesResult := v.entities.filter fun e => containsCI q e.name
    entityObservationsResult := v.observations.filter fun o => containsCI q o.observation
    entityTypesResult := v.entities.filter fun e => containsCI q e.type }

/-- Are the results of readGraph, searchNodes (for every query) and
openNodes (for every name set) scoped to this owner identical on the two
states?  This is the sense in which an operation is invisible to a tenant. -/
def readsAgree (db db2 : DbState) (owner : String) : Prop :=
  readGraph db owner = readGraph db2 owner
  ∧ (∀ q, searchNodes db owner q = searchNodes db2 owner q)
  ∧ (∀ ns, openNodes db owner ns = openNodes db2 owner ns)

/-! ### Lemmas about ILIKE pattern matching -/


def noMetaChars (l : List Char) : Bool :=
  l.all fun c => !(c == '%') && !(c == '_') && !(c == '\\')

def likeMetaFree (q : String) : Bool := noMetaChars q.toList

lemma likeMatch_percent_cons (ps s : List Char) :
    likeMatch ('%' :: ps) s = (suffixes s).any fun t => likeMatch ps t := by
  rw [likeMatch.eq_def]
  dsimp only
  rw [if_pos rfl]

lemma likeMatch_lit_nil (p : Char) (ps : List Char)
    (hp1 : p ≠ '%') (hp3 : p ≠ '\\') (hp2 : p ≠ '_') :
    likeMatch (p :: ps) [] = false := by
  rw [likeMatch.eq_def]
  dsimp only
  rw [if_neg hp1, if_neg hp3, if_neg hp2]

lemma likeMatch_lit_cons (p : Char) (ps : List Char) (c : Char) (s2 : List Char)
    (hp1 : p ≠ '%') (hp3 : p ≠ '\\') (hp2 : p ≠ '_') :
    likeMatch (p :: ps) (c :: s2) = (c == p && likeMatch ps s2) := by
  rw [likeMatch.eq_def]
  dsimp only
  rw [if_neg hp1, if_neg hp3, if_neg hp2]

lemma likeMatch_underscore_nil (ps : List Char) :
    likeMatch ('_' :: ps) [] = false := by
  rw [likeMatch.eq_def]
  dsimp only
  rw [if_neg (by decide), if_neg (by decide), if_pos rfl]

lemma likeMatch_underscore_cons (ps : List Char) (c : Char) (s2 : List Char) :
    likeMatch ('_' :: ps) (c :: s2) = likeMatch ps s2 := by
  rw [likeMatch.eq_def]
  dsimp only
  rw [if_neg (by decide), if_neg (by decide), if_pos rfl]

lemma nil_mem_suffixes (s : List Char) : [] ∈ suffixes s := by
  induction s <;> simp [suffixes, *]

lemma self_mem_suffixes (s : List Char) : s ∈ suffixes s := by
  cases s <;> simp [suffixes, nil_mem_suffixes]

lemma likeMatch_one_percent (s : List Char) : likeMatch ['%'] s = true := by
  rw [likeMatch_percent_cons, List.any_eq_true]
  exact ⟨[], nil_mem_suffixes s, rfl⟩

lemma likeMatch_literal (ps : List Char) (h : noMetaChars ps = true) (s : List Char) :
    likeMatch (ps ++ ['%']) s = ps.isPrefixOf s := by
  induction ps generalizing s with
  | nil => simpa [List.isPrefixOf] using likeMatch_one_percent s
  | cons p ps ih =>
    rw [noMetaChars, List.all_cons, Bool.and_eq_true] at h
    obtain ⟨hp, hps⟩ := h
    have hp1 : ¬p = '%' := by simp at hp; tauto
    have hp2 : ¬p = '_' := by simp at hp; tauto
    have hp3 : ¬p = '\\' := by simp at hp; tauto
    cases s with
    | nil =>
      rw [List.cons_append, likeMatch_lit_nil p _ hp1 hp3 hp2]
      simp [List.isPrefixOf]
    | cons c s2 =>
      rw [List.cons_append, likeMatch_lit_cons p _ c s2 hp1 hp3 hp2, ih hps s2]
      show _ = (p == c && ps.isPrefixOf s2)
      have hcomm : (c == p) = (p == c) := by
        rcases Decidable.em (c = p) with he | he
        · subst he; rfl
        · rw [beq_eq_false_iff_ne.mpr he, beq_eq_false_iff_ne.mpr (Ne.symm he)]
      rw [hcomm]

lemma isSubListOf_any (q s : List Char) :
    isSubListOf q s = (suffixes s).any fun t => q.isPrefixOf t := by
  induction s <;> simp [isSubListOf, suffixes, *]

lemma likeMatch_sub (ps : List Char) (h : noMetaChars ps = true) (s : List Char) :
    likeMatch (('%' :: ps) ++ ['%']) s = isSubListOf ps s := by
  rw [List.cons_append, likeMatch_percent_cons, isSubListOf_any]
  exact congrArg _ (funext fun t => likeMatch_literal ps h t)

lemma toLower_eq_meta {c m : Char} (hm : m = '%' ∨ m = '_' ∨ m = '\\')
    (h : Char.toLower c = m) : c = m := by
  unfold Char.toLower at h
  dsimp only at h
  split at h
  · next hcond =>
    obtain ⟨h1, h2⟩ := hcond
    exfalso
    set n := c.toNat with hn
    interval_cases n <;> rcases hm with rfl | rfl | rfl <;> exact absurd h (by decide)
  · exact h

lemma noMeta_lowerChars (q : String) (h : likeMetaFree q = true) :
    noMetaChars (lowerChars q) = true := by
  rw [likeMetaFree, noMetaChars, List.all_eq_true] at h
  rw [noMetaChars, List.all_eq_true]
  rintro c hc
  rw [lowerChars, List.mem_map] at hc
  obtain ⟨d, hd, rfl⟩ := hc
  have hmeta := h d hd
  simp only [Bool.and_eq_true, Bool.not_eq_true', beq_eq_false_iff_ne, ne_eq] at hmeta ⊢
  refine ⟨⟨fun hx => hmeta.1.1 (toLower_eq_meta (Or.inl rfl) hx),
          fun hx => hmeta.1.2 (toLower_eq_meta (Or.inr (Or.inl rfl)) hx)⟩,
          fun hx => hmeta.2 (toLower_eq_meta (Or.inr (Or.inr rfl)) hx)⟩

lemma ilike_eq_containsCI (q : String) (h : likeMetaFree q = true) (s : String) :
    ilikeContains q s = containsCI q s := by
  rw [ilikeContains, containsCI, likeMatch_sub (lowerChars q) (noMeta_lowerChars q h)]

/-! ### Owner-scoping lemmas: every operation scoped to one owner leaves every
other owner-filtered view of the three tables unchanged -/


lemma filter_sub_filter {α : Type} (p q : α → Bool) (h : ∀ x, p x = true → q x = true)
    (l : List α) : (l.filter q).filter p = l.filter p := by
  induction l with
  | nil => rfl
  | cons x xs ih =>
    cases hq : q x with
    | false =>
      have hp : p x = false := by
        cases hpx : p x with
        | false => rfl
        | true => exact absurd (h x hpx) (by simp [hq])
      simp [List.filter_cons, hq, hp, ih]
    | true => simp [List.filter_cons, hq, ih]

lemma ownerView_obsGo (A B en : String) (fa : Option Nat) (hAB : A ≠ B) :
    ∀ (os : List String) (db : DbState) (i : Nat),
      ownerView (createEntityObservationsGo A en fa db i os).2 B = ownerView db B := by
  intro os
  induction os with
  | nil => intro db i; rfl
  | cons o rest ih =>
    intro db i
    rw [createEntityObservationsGo]
    by_cases hf : fa = some i
    · simp [hf]
    · simp only [if_neg hf]
      rw [ih]
      simp [ownerView, List.filter_append, beq_eq_false_iff_ne.mpr hAB]

lemma ownerView_createEntities (A B : String) (hAB : A ≠ B) :
    ∀ (es : List EntitySpec) (db : DbState),
      ownerView (createEntities A db es).2 B = ownerView db B := by
  intro es
  induction es with
  | nil => intro db; rfl
  | cons e rest ih =>
    intro db
    rw [createEntities]
    by_cases hc : entityExists db A e.name
    · simp [hc]
    · simp only [if_neg hc]
      rw [ih, createEntityObservations, ownerView_obsGo A B _ none hAB]
      simp [ownerView, List.filter_append, beq_eq_false_iff_ne.mpr hAB]

lemma ownerView_createRelations (A B : String) (hAB : A ≠ B) :
    ∀ (rs : List RelationSpec) (db : DbState),
      ownerView (createRelations A db rs).2 B = ownerView db B := by
  intro rs
  induction rs with
  | nil => intro db; rfl
  | cons r rest ih =>
    intro db
    rw [createRelations, ih]
    simp [ownerView, List.filter_append, beq_eq_false_iff_ne.mpr hAB]

lemma ownerView_add_observations (A B en : String) (os : List String)
    (fa : Option Nat) (hAB : A ≠ B) (db : DbState) :
    ownerView (add_observations A en db os fa).2 B = ownerView db B := by
  rw [add_observations]
  exact ownerView_obsGo A B en fa hAB os db 0

lemma ownerView_deleteEntities (A B : String) (hAB : A ≠ B) :
    ∀ (ns : List String) (db : DbState),
      ownerView (deleteEntities A db ns).2 B = ownerView db B := by
  intro ns
  induction ns with
  | nil => intro db; rfl
  | cons n rest ih =>
    intro db
    rw [deleteEntities, ih]
    have hsub := filter_sub_filter (fun e : EntityRow => e.user_id == B)
      (fun e => !(e.user_id == A && e.name == n))
      (fun x hx => by
        have hxB : x.user_id = B := by simpa using hx
        simp [hxB, beq_eq_false_iff_ne.mpr (Ne.symm hAB)]) db.entities
    simp only [ownerView]
    rw [hsub]

lemma ownerView_deleteRelations (A B : String) (hAB : A ≠ B) :
    ∀ (rs : List RelationSpec) (db : DbState),
      ownerView (deleteRelations A db rs).2 B = ownerView db B := by
  intro rs
  induction rs with
  | nil => intro db; rfl
  | cons r rest ih =>
    intro db
    rw [deleteRelations, ih]
    have hsub := filter_sub_filter (fun x : RelationRow => x.user_id == B)
      (fun x => !(x.user_id == A && x.from_ == r.from_ && x.to_ == r.to_ && x.type == r.relationType))
      (fun x hx => by
        have hxB : x.user_id = B := by simpa using hx
        simp [hxB, beq_eq_false_iff_ne.mpr (Ne.symm hAB)]) db.relations
    simp only [ownerView]
    rw [hsub]

lemma ownerView_deleteObservations (A B en : String) (hAB : A ≠ B) :
    ∀ (os : List String) (db : DbState),
      ownerView (deleteObservations A en db os).2 B = ownerView db B := by
  intro os
  induction os with
  | nil => intro db; rfl
  | cons o rest ih =>
    intro db
    rw [deleteObservations, ih]
    have hsub := filter_sub_filter (fun x : ObservationRow => x.user_id == B)
      (fun x => !(x.user_id == A && x.entity_name == en && x.observation == o))
      (fun x hx => by
        have hxB : x.user_id = B := by simpa using hx
        simp [hxB, beq_eq_false_iff_ne.mpr (Ne.symm hAB)]) db.observations
    simp only [ownerView]
    rw [hsub]

lemma readGraph_congr {db db2 : DbState} {B : String}
    (h : ownerView db B = ownerView db2 B) : readGraph db B = readGraph db2 B := by
  unfold readGraph
  rw [h]

lemma searchNodes_congr {db db2 : DbState} {B : String} (q : String)
    (h : ownerView db B = ownerView db2 B) : searchNodes db B q = searchNodes db2 B q := by
  unfold searchNodes
  rw [h]

lemma openNodes_congr {db db2 : DbState} {B : String} (ns : List String)
    (h : ownerView db B = ownerView db2 B) : openNodes db B ns = openNodes db2 B ns := by
  unfold openNodes
  rw [h]

lemma readsAgree_of_view {db db2 : DbState} {B : String}
    (h : ownerView db B = ownerView db2 B) : readsAgree db db2 B :=
  ⟨readGraph_congr h, fun q => searchNodes_congr q h, fun ns => openNodes_congr ns h⟩


/-- C1. Tenant isolation: for distinct owner ids A and B, every mutation
executed with owner id A (createEntities, createRelations, add_observations,
deleteEntities, deleteRelations, deleteObservations) leaves the results of
readGraph, searchNodes (for every query) and openNodes (for every name list)
scoped to owner id B exactly as they were; in particular no row created
under A is ever contained in a read scoped to B, because every read and
write filters the three graph tables by owner id. -/
theorem c1_tenant_isolation (A B : String) (hAB : A ≠ B) (db : DbState) :
    (∀ es, readsAgree (createEntities A db es).2 db B)
    ∧ (∀ rs, readsAgree (createRelations A db rs).2 db B)
    ∧ (∀ en os failAt, readsAgree (add_observations A en db os failAt).2 db B)
    ∧ (∀ ns, readsAgree (deleteEntities A db ns).2 db B)
    ∧ (∀ rs, readsAgree (deleteRelations A db rs).2 db B)
    ∧ (∀ en os, readsAgree (deleteObservations A en db os).2 db B) :=
  ⟨fun es => readsAgree_of_view (ownerView_createEntities A B hAB es db),
   fun rs => readsAgree_of_view (ownerView_createRelations A B hAB rs db),
   fun en os failAt => readsAgree_of_view (ownerView_add_observations A B en os failAt hAB db),
   fun ns => readsAgree_of_view (ownerView_deleteEntities A B hAB ns db),
   fun rs => readsAgree_of_view (ownerView_deleteRelations A B hAB rs db),
   fun en os => readsAgree_of_view (ownerView_deleteObservations A B en hAB os db)⟩

/-- Witness for C1 at concrete owners and a concrete batch. -/
theorem c1_tenant_isolation_witness :
    readsAgree (createEntities "alice" {} [⟨"X", "t", ["obs"]⟩]).2 {} "bob" :=
  (c1_tenant_isolation "alice" "bob" (by decide) {}).1 [⟨"X", "t", ["obs"]⟩]


/-! ### Closed-form state equations for the unconditional inserts -/

lemma createEntityObservationsGo_none (owner en : String) :
    ∀ (os : List String) (db : DbState) (i : Nat),
      createEntityObservationsGo owner en none db i os
        = ({ success := true },
           { db with observations := db.observations ++ os.map fun o => ⟨owner, en, o⟩ }) := by
  intro os
  induction os with
  | nil => intro db i; simp [createEntityObservationsGo]
  | cons o rest ih =>
    intro db i
    rw [createEntityObservationsGo]
    simp only [reduceCtorEq, if_false]
    rw [ih]
    simp [List.append_assoc]

lemma createRelations_eq (owner : String) :
    ∀ (rs : List RelationSpec) (db : DbState),
      createRelations owner db rs
        = ({ success := true },
           { db with relations := db.relations ++ rs.map fun r => ⟨owner, r.from_, r.to_, r.relationType⟩ }) := by
  intro rs
  induction rs with
  | nil => intro db; simp [createRelations]
  | cons r rest ih =>
    intro db
    rw [createRelations, ih]
    simp [List.append_assoc]

lemma add_observations_eq (owner en : String) (db : DbState) (os : List String) :
    add_observations owner en db os none
      = ({ success := true, result := { success := true } },
         { db with observations := db.observations ++ os.map fun o => ⟨owner, en, o⟩ }) := by
  rw [add_observations, createEntityObservations, createEntityObservationsGo_none]

/-- C9. No referential enforcement on writes: createRelations appends its
rows unconditionally and reports success for every input state (in
particular for relations such as Ghost -> Nobody whose endpoints exist
nowhere in the entity table), and add_observations appends observation rows
without any check that the named entity exists. -/
theorem c9_no_referential_enforcement (owner : String) (db : DbState) :
    (∀ rs, createRelations owner db rs
        = ({ success := true },
           { db with relations := db.relations ++ rs.map fun r => ⟨owner, r.from_, r.to_, r.relationType⟩ }))
    ∧ (∀ en os, add_observations owner en db os none
        = ({ success := true, result := { success := true } },
           { db with observations := db.observations ++ os.map fun o => ⟨owner, en, o⟩ }))
    ∧ (createRelations owner db [⟨"Ghost", "Nobody", "knows"⟩]).1.success = true :=
  ⟨fun rs => createRelations_eq owner rs db,
   fun en os => add_observations_eq owner en db os,
   by rw [createRelations_eq owner [⟨"Ghost", "Nobody", "knows"⟩] db]⟩

/-- C6 (code-bug exhibit). add_observations always reports success: true at
its own boundary — even when the storage layer fails during the nested
observation insert, in which case the caught failure is only visible inside
the wrapped result field, as the second conjunct shows on a concrete run
whose first insert statement throws. -/
theorem c6_add_observations_mislabels_failure :
    (∀ owner en db os failAt, (add_observations owner en db os failAt).1.success = true)
    ∧ add_observations "o1" "Alice" {} ["likes tea"] (some 0)
        = ({ success := true, result := { success := false, error := some .storageError } }, {}) := by
  exact ⟨fun owner en db os failAt => rfl, by decide⟩

/-- C5. AuthService.canAccessTool: false when the tenant toolConfig has no
entry for the tool or the entry is disabled; for an enabled entry it is true
exactly when the user role is in allowedRoles or is admin; in particular a
readonly user is denied for allowedRoles = [admin, user], and an admin
always passes an enabled entry regardless of allowedRoles. -/
theorem c5_can_access_tool (ctx : UserContext) (toolName : String) :
    (ctx.tenant.toolConfig.lookup toolName = none → canAccessTool ctx toolName = false)
    ∧ (∀ cfg, ctx.tenant.toolConfig.lookup toolName = some cfg →
        (cfg.enabled = false → canAccessTool ctx toolName = false)
        ∧ (cfg.enabled = true →
            (canAccessTool ctx toolName = true ↔
              (ctx.user.role ∈ cfg.allowedRoles ∨ ctx.user.role = Role.admin)))
        ∧ (cfg.enabled = true → cfg.allowedRoles = [Role.admin, Role.user] →
            ctx.user.role = Role.readonly → canAccessTool ctx toolName = false)
        ∧ (cfg.enabled = true → ctx.user.role = Role.admin →
            canAccessTool ctx toolName = true)) := by
  constructor
  · intro h
    simp [canAccessTool, h]
  · intro cfg h
    refine ⟨fun he => ?_, fun he => ?_, fun he hroles hrole => ?_, fun he hrole => ?_⟩
    · simp [canAccessTool, h, he]
    · simp [canAccessTool, h, he]
    · simp [canAccessTool, h, he, hroles, hrole]
    · simp [canAccessTool, h, he, hrole]

/-- The admin-role and readonly-role contexts used by the C5 witness, both
over a tenant carrying the default toolConfig. -/
def ctxAdmin : UserContext :=
  ⟨⟨"u1", "a@x", "t1", Role.admin, [], true⟩,
   ⟨"t1", "T", "u1", defaultToolConfig, true⟩, "s", []⟩

def ctxReadonly : UserContext :=
  ⟨⟨"u2", "r@x", "t1", Role.readonly, [], true⟩,
   ⟨"t1", "T", "u1", defaultToolConfig, true⟩, "s", []⟩

/-- The ToolPermission stored for add in the default toolConfig. -/
def addToolPermission : ToolPermission :=
  { enabled := true, allowedRoles := [Role.admin, Role.user], rateLimits := ⟨60, 1000, 10000⟩ }

/-- Witness for C5: with the default tenant toolConfig, an admin passes the
enabled tool add, and a readonly user is denied for add, whose allowedRoles
are [admin, user]. -/
theorem c5_can_access_tool_witness :
    canAccessTool ctxAdmin "add" = true ∧ canAccessTool ctxReadonly "add" = false :=
  ⟨((c5_can_access_tool ctxAdmin "add").2 addToolPermission (by decide)).2.2.2 rfl rfl,
   ((c5_can_access_tool ctxReadonly "add").2 addToolPermission (by decide)).2.2.1 rfl rfl rfl⟩

/-- C2 (code-bug exhibit). The graph tool handlers in index.ts run the
GraphStore operation without any preceding access-control decision: for a
concrete user context whose tenant toolConfig (the default one) has no entry
for create_entities — so AuthService.canAccessTool denies — and whose props
permissions also deny under MyMCP.canAccessTool, the create_entities handler
nevertheless executes the store operation and commits the entity row. -/
theorem c2_store_runs_without_access_check :
    canAccessTool ⟨⟨"u1", "u1@x", "t1", Role.user, ["read_profile", "read_data", "write_data"], true⟩,
      ⟨"t1", "T", "u1", defaultToolConfig, true⟩, "s",
      ["read_profile", "read_data", "write_data"]⟩ "create_entities" = false
    ∧ MyMCP.canAccessTool ⟨⟨"u1", "u1@x", "t1", Role.user, ["read_profile", "read_data", "write_data"], true⟩,
        ["read_profile", "read_data", "write_data"]⟩ "create_entities" = false
    ∧ create_entities_handler ⟨⟨"u1", "u1@x", "t1", Role.user, ["read_profile", "read_data", "write_data"], true⟩,
        ["read_profile", "read_data", "write_data"]⟩ {} [⟨"Ghost", "spirit", []⟩]
        = ({ success := true }, { entities := [⟨"u1", "Ghost", "spirit"⟩] }) := by
  decide


lemma likeMatch_two_percent (l : List Char) : likeMatch ['%', '%'] l = true := by
  rw [likeMatch_percent_cons, List.any_eq_true]
  exact ⟨l, self_mem_suffixes l, likeMatch_one_percent l⟩

lemma likeMatch_three_percent (l : List Char) : likeMatch ['%', '%', '%'] l = true := by
  rw [likeMatch_percent_cons, List.any_eq_true]
  exact ⟨l, self_mem_suffixes l, likeMatch_two_percent l⟩

lemma ilike_percent_all (s : String) : ilikeContains "%" s = true := by
  have hpat : ('%' :: lowerChars "%" ++ ['%']) = ['%', '%', '%'] := by decide
  rw [ilikeContains, hpat, likeMatch_three_percent]

lemma likeMatch_pup (l : List Char) : likeMatch ['%', '_', '%'] l = !l.isEmpty := by
  cases l with
  | nil =>
    rw [likeMatch_percent_cons]
    simp [suffixes, likeMatch_underscore_nil]
  | cons c s2 =>
    rw [likeMatch_percent_cons]
    have h1 : likeMatch ['_', '%'] (c :: s2) = true := by
      rw [likeMatch_underscore_cons, likeMatch_one_percent]
    simp [suffixes, h1]

lemma ilike_underscore (s : String) : ilikeContains "_" s = !s.toList.isEmpty := by
  have hpat : ('%' :: lowerChars "_" ++ ['%']) = ['%', '_', '%'] := by decide
  rw [ilikeContains, hpat, likeMatch_pup]
  congr 1
  rw [lowerChars]
  generalize s.toList = l
  cases l <;> rfl

/-- C10. The raw query is interpolated into the ILIKE pattern as %query%, so
pattern metacharacters in the query act as wildcards: searchNodes with the
query "%" returns every entity of the owner, the query "_" returns exactly
the owner entities whose name is non-empty (has at least one character), and
matching is not literal substring containment for such queries — "%" is
matched by "xyz" although "%" is not a substring of "xyz". -/
theorem c10_ilike_metacharacters (db : DbState) (owner : String) :
    ((searchNodes db owner "%").entityNamesResult = db.entities.filter fun e => e.user_id == owner)
    ∧ ((searchNodes db owner "_").entityNamesResult
        = (db.entities.filter fun e => e.user_id == owner).filter fun e => !e.name.toList.isEmpty)
    ∧ ilikeContains "%" "xyz" = true ∧ containsCI "%" "xyz" = false := by
  refine ⟨?_, ?_, by decide, by decide⟩
  · show List.filter _ (List.filter _ db.entities) = _
    rw [List.filter_eq_self.mpr fun a _ => ilike_percent_all a.name]
  · show List.filter _ (List.filter _ db.entities) = _
    exact List.filter_congr fun a _ => ilike_underscore a.name


lemma deleteEntities_single (owner n : String) (db : DbState) :
    deleteEntities owner db [n]
      = ({ success := true },
         { db with entities := db.entities.filter fun e => !(e.user_id == owner && e.name == n) }) := by
  rw [deleteEntities, deleteEntities]

/-- C4. deleteEntities deletes only matching entity rows and nothing
cascades: whenever the graph of an owner contains entity Alice, an
observation row (Alice, likes tea) and a relation row Alice -> Bob, then
after deleteEntities(["Alice"]) the call succeeds, readGraph no longer lists
any entity named Alice but still lists the relation Alice -> Bob, and the
orphaned observation row is still stored and is still returned by a direct
searchNodes query for its text. -/
theorem c4_no_cascade_delete (db : DbState) (owner ty rt : String)
    (he : EntityRow.mk owner "Alice" ty ∈ db.entities)
    (ho : ObservationRow.mk owner "Alice" "likes tea" ∈ db.observations)
    (hr : RelationRow.mk owner "Alice" "Bob" rt ∈ db.relations) :
    (deleteEntities owner db ["Alice"]).1.success = true
    ∧ (∀ e ∈ (readGraph (deleteEntities owner db ["Alice"]).2 owner).entities, e.name ≠ "Alice")
    ∧ RelationOut.mk "Alice" "Bob" rt ∈ (readGraph (deleteEntities owner db ["Alice"]).2 owner).relations
    ∧ ObservationRow.mk owner "Alice" "likes tea" ∈ (deleteEntities owner db ["Alice"]).2.observations
    ∧ ObservationRow.mk owner "Alice" "likes tea"
        ∈ (searchNodes (deleteEntities owner db ["Alice"]).2 owner "likes tea").entityObservationsResult := by
  rw [deleteEntities_single]
  refine ⟨rfl, ?_, ?_, ho, ?_⟩
  · intro e hmem
    simp only [readGraph, ownerView] at hmem
    rw [List.mem_map] at hmem
    obtain ⟨row, hrow, rfl⟩ := hmem
    rw [List.mem_filter, List.mem_filter] at hrow
    obtain ⟨⟨_hmem, hkeep⟩, huser⟩ := hrow
    dsimp only
    intro hname
    have hcontra : (row.user_id == owner && row.name == "Alice") = true := by
      simp [huser, hname]
    rw [hcontra] at hkeep
    simp at hkeep
  · simp only [readGraph, ownerView]
    rw [List.mem_map]
    refine ⟨⟨owner, "Alice", "Bob", rt⟩, List.mem_filter.mpr ⟨hr, ?_⟩, rfl⟩
    show (owner == owner) = true
    simp
  · simp only [searchNodes, ownerView]
    rw [List.mem_filter]
    refine ⟨List.mem_filter.mpr ⟨ho, ?_⟩, ?_⟩
    · show (owner == owner) = true
      simp
    · show ilikeContains "likes tea" "likes tea" = true
      decide

/-- Witness for C4 at a concrete one-owner database. -/
theorem c4_no_cascade_delete_witness :
    (deleteEntities "o1" ⟨[⟨"o1", "Alice", "person"⟩], [⟨"o1", "Alice", "Bob", "knows"⟩],
        [⟨"o1", "Alice", "likes tea"⟩]⟩ ["Alice"]).1.success = true
    ∧ (∀ e ∈ (readGraph (deleteEntities "o1" ⟨[⟨"o1", "Alice", "person"⟩], [⟨"o1", "Alice", "Bob", "knows"⟩],
        [⟨"o1", "Alice", "likes tea"⟩]⟩ ["Alice"]).2 "o1").entities, e.name ≠ "Alice")
    ∧ RelationOut.mk "Alice" "Bob" "knows" ∈ (readGraph (deleteEntities "o1" ⟨[⟨"o1", "Alice", "person"⟩],
        [⟨"o1", "Alice", "Bob", "knows"⟩], [⟨"o1", "Alice", "likes tea"⟩]⟩ ["Alice"]).2 "o1").relations
    ∧ ObservationRow.mk "o1" "Alice" "likes tea" ∈ (deleteEntities "o1" ⟨[⟨"o1", "Alice", "person"⟩],
        [⟨"o1", "Alice", "Bob", "knows"⟩], [⟨"o1", "Alice", "likes tea"⟩]⟩ ["Alice"]).2.observations
    ∧ ObservationRow.mk "o1" "Alice" "likes tea"
        ∈ (searchNodes (deleteEntities "o1" ⟨[⟨"o1", "Alice", "person"⟩], [⟨"o1", "Alice", "Bob", "knows"⟩],
            [⟨"o1", "Alice", "likes tea"⟩]⟩ ["Alice"]).2 "o1" "likes tea").entityObservationsResult :=
  c4_no_cascade_delete ⟨[⟨"o1", "Alice", "person"⟩], [⟨"o1", "Alice", "Bob", "knows"⟩],
    [⟨"o1", "Alice", "likes tea"⟩]⟩ "o1" "person" "knows"
    (by decide) (by decide) (by decide)


lemma entityExists_false_of_empty (db : DbState) (owner n : String)
    (he : db.entities.filter (fun e => e.user_id == owner) = []) :
    entityExists db owner n = false := by
  cases hx : entityExists db owner n with
  | false => rfl
  | true =>
    exfalso
    rw [entityExists, List.any_eq_true] at hx
    obtain ⟨e, hmem, hpe⟩ := hx
    rw [Bool.and_eq_true] at hpe
    exact absurd hpe.1 (by simpa using List.filter_eq_nil_iff.mp he e hmem)

lemma createEntities_single (owner : String) (db : DbState) (e : EntitySpec)
    (h : entityExists db owner e.name = false) :
    createEntities owner db [e]
      = ({ success := true },
         { db with entities := db.entities ++ [⟨owner, e.name, e.entityType⟩],
                   observations := db.observations ++ e.observations.map fun o => ⟨owner, e.name, o⟩ }) := by
  rw [createEntities]
  simp only [h, Bool.false_eq_true, if_false]
  rw [createEntityObservations, createEntityObservationsGo_none, createEntities]

/-- C7. Round trip: for an owner whose graph is empty (every owner-filtered
select over the three tables is empty), createEntities of the single entity
Alice/person with observation "likes tea" succeeds, and readGraph then
returns exactly the graph with that one hydrated entity and no relations. -/
theorem c7_round_trip (db : DbState) (owner : String)
    (h : ownerView db owner = {}) :
    (createEntities owner db [⟨"Alice", "person", ["likes tea"]⟩]).1 = { success := true }
    ∧ readGraph (createEntities owner db [⟨"Alice", "person", ["likes tea"]⟩]).2 owner
        = { entities := [⟨"Alice", "person", ["likes tea"]⟩], relations := [] } := by
  have he : db.entities.filter (fun e => e.user_id == owner) = [] :=
    congrArg DbState.entities h
  have hrl : db.relations.filter (fun r => r.user_id == owner) = [] :=
    congrArg DbState.relations h
  have hob : db.observations.filter (fun o => o.user_id == owner) = [] :=
    congrArg DbState.observations h
  rw [createEntities_single owner db _ (entityExists_false_of_empty db owner _ he)]
  refine ⟨rfl, ?_⟩
  simp only [readGraph, ownerView]
  rw [List.filter_append, List.filter_append, he, hob]
  simp [hrl]

/-- Witness for C7 on the empty database. -/
theorem c7_round_trip_witness :
    (createEntities "o1" {} [⟨"Alice", "person", ["likes tea"]⟩]).1 = { success := true }
    ∧ readGraph (createEntities "o1" {} [⟨"Alice", "person", ["likes tea"]⟩]).2 "o1"
        = { entities := [⟨"Alice", "person", ["likes tea"]⟩], relations := [] } :=
  c7_round_trip {} "o1" (by decide)


/-- The state committed by one successful iteration of the createEntities
loop: the entity row plus one observation row per listed observation. -/
def stepState (owner : String) (db : DbState) (p : EntitySpec) : DbState :=
  { db with entities := db.entities ++ [⟨owner, p.name, p.entityType⟩],
            observations := db.observations ++ p.observations.map fun o => ⟨owner, p.name, o⟩ }

lemma stepState_entities (owner : String) (db : DbState) (p : EntitySpec) :
    (stepState owner db p).entities = db.entities ++ [⟨owner, p.name, p.entityType⟩] := rfl

lemma stepState_observations (owner : String) (db : DbState) (p : EntitySpec) :
    (stepState owner db p).observations
      = db.observations ++ p.observations.map fun o => ⟨owner, p.name, o⟩ := rfl

lemma createEntities_cons_ok (owner : String) (db : DbState) (p : EntitySpec)
    (rest : List EntitySpec) (h : entityExists db owner p.name = false) :
    createEntities owner db (p :: rest) = createEntities owner (stepState owner db p) rest := by
  rw [createEntities]
  simp only [h, Bool.false_eq_true, if_false]
  rw [createEntityObservations, createEntityObservationsGo_none]
  rfl

lemma createEntities_cons_conflict (owner : String) (db : DbState) (p : EntitySpec)
    (rest : List EntitySpec) (h : entityExists db owner p.name = true) :
    createEntities owner db (p :: rest)
      = ({ success := false, error := some .conflictError }, db) := by
  rw [createEntities]
  simp only [h, if_true]

/-- C3. Per-entity conflict semantics of createEntities: when some entity of
the batch carries an (ownerId, name) pair that already exists in the entity
table (and the earlier batch entries do not, so that the loop reaches it),
the call fails with the conflict error, every pre-existing row of the entity
and observation tables is still present unchanged (the new rows are appended
after them), and the entities earlier in the batch remain committed together
with their observations — the batch is not rolled back atomically. -/
theorem c3_per_entity_conflict (owner : String) (db : DbState)
    (pre post : List EntitySpec) (e : EntitySpec)
    (hconf : entityExists db owner e.name = true)
    (hpre : ∀ p ∈ pre, entityExists db owner p.name = false)
    (hnodup : (pre.map EntitySpec.name).Nodup) :
    (createEntities owner db (pre ++ e :: post)).1
        = { success := false, error := some GraphError.conflictError }
    ∧ (∃ newEnts, (createEntities owner db (pre ++ e :: post)).2.entities = db.entities ++ newEnts)
    ∧ (∃ newObs, (createEntities owner db (pre ++ e :: post)).2.observations = db.observations ++ newObs)
    ∧ (∀ p ∈ pre, EntityRow.mk owner p.name p.entityType ∈ (createEntities owner db (pre ++ e :: post)).2.entities)
    ∧ (∀ p ∈ pre, ∀ o ∈ p.observations,
        ObservationRow.mk owner p.name o ∈ (createEntities owner db (pre ++ e :: post)).2.observations) := by
  induction pre generalizing db with
  | nil =>
    rw [List.nil_append, createEntities_cons_conflict owner db e post hconf]
    exact ⟨rfl, ⟨[], by simp⟩, ⟨[], by simp⟩, by simp, by simp⟩
  | cons p pre2 ih =>
    have hp : entityExists db owner p.name = false := hpre p (List.mem_cons_self p pre2)
    rw [List.cons_append, createEntities_cons_ok owner db p _ hp]
    rw [List.map_cons, List.nodup_cons] at hnodup
    have hconf2 : entityExists (stepState owner db p) owner e.name = true := by
      rw [entityExists] at hconf ⊢
      rw [stepState_entities, List.any_append, hconf, Bool.true_or]
    have hpre2 : ∀ p2 ∈ pre2, entityExists (stepState owner db p) owner p2.name = false := by
      intro p2 hm
      have hbase := hpre p2 (List.mem_cons_of_mem p hm)
      have hne : p.name ≠ p2.name := by
        intro heq
        exact hnodup.1 (heq ▸ List.mem_map_of_mem EntitySpec.name hm)
      rw [entityExists] at hbase ⊢
      rw [stepState_entities, List.any_append, hbase, Bool.false_or]
      simp [beq_eq_false_iff_ne.mpr hne]
    obtain ⟨ih1, ⟨ne1, ihe⟩, ⟨no1, iho⟩, ihm, ihmo⟩ := ih (stepState owner db p) hconf2 hpre2 hnodup.2
    refine ⟨ih1, ?_, ?_, ?_, ?_⟩
    · refine ⟨⟨owner, p.name, p.entityType⟩ :: ne1, ?_⟩
      rw [ihe, stepState_entities, List.append_assoc]
      rfl
    · refine ⟨p.observations.map (fun o => ⟨owner, p.name, o⟩) ++ no1, ?_⟩
      rw [iho, stepState_observations, List.append_assoc]
    · intro p2 hm
      rcases List.mem_cons.mp hm with rfl | hm2
      · rw [ihe]
        exact List.mem_append_left _ (by rw [stepState_entities]; simp)
      · exact ihm p2 hm2
    · intro p2 hm o hoin
      rcases List.mem_cons.mp hm with rfl | hm2
      · rw [iho]
        refine List.mem_append_left _ ?_
        rw [stepState_observations]
        exact List.mem_append_right _ (List.mem_map_of_mem _ hoin)
      · exact ihmo p2 hm2 o hoin

/-- Witness for C3: a two-entity batch whose second entry collides with the
pre-existing row (o1, Bob); the first entry Ann remains committed. -/
theorem c3_per_entity_conflict_witness :
    (createEntities "o1" ⟨[⟨"o1", "Bob", "person"⟩], [], []⟩
        ([⟨"Ann", "person", ["x"]⟩] ++ ⟨"Bob", "person", []⟩ :: [])).1
      = { success := false, error := some GraphError.conflictError }
    ∧ (∃ newEnts, (createEntities "o1" ⟨[⟨"o1", "Bob", "person"⟩], [], []⟩
        ([⟨"Ann", "person", ["x"]⟩] ++ ⟨"Bob", "person", []⟩ :: [])).2.entities
          = [⟨"o1", "Bob", "person"⟩] ++ newEnts)
    ∧ (∃ newObs, (createEntities "o1" ⟨[⟨"o1", "Bob", "person"⟩], [], []⟩
        ([⟨"Ann", "person", ["x"]⟩] ++ ⟨"Bob", "person", []⟩ :: [])).2.observations
          = [] ++ newObs)
    ∧ (∀ p ∈ [(⟨"Ann", "person", ["x"]⟩ : EntitySpec)],
        EntityRow.mk "o1" p.name p.entityType ∈ (createEntities "o1" ⟨[⟨"o1", "Bob", "person"⟩], [], []⟩
          ([⟨"Ann", "person", ["x"]⟩] ++ ⟨"Bob", "person", []⟩ :: [])).2.entities)
    ∧ (∀ p ∈ [(⟨"Ann", "person", ["x"]⟩ : EntitySpec)], ∀ o ∈ p.observations,
        ObservationRow.mk "o1" p.name o ∈ (createEntities "o1" ⟨[⟨"o1", "Bob", "person"⟩], [], []⟩
          ([⟨"Ann", "person", ["x"]⟩] ++ ⟨"Bob", "person", []⟩ :: [])).2.observations) :=
  c3_per_entity_conflict "o1" ⟨[⟨"o1", "Bob", "person"⟩], [], []⟩
    [⟨"Ann", "person", ["x"]⟩] [] ⟨"Bob", "person", []⟩
    (by decide) (by decide) (by decide)


/-- C8 counterexample: searchNodes does not perform a literal substring
match for every query string — on a database holding the single entity
(o1, xyz, t), the query "%" matches the entity under searchNodes although
"%" is not a substring of any of its columns, so searchNodes differs from
the literal-substring reading of the specification at this input. -/
theorem c8_counterexample :
    searchNodes ⟨[⟨"o1", "xyz", "t"⟩], [], []⟩ "o1" "%"
      ≠ searchNodesSpecLiteral ⟨[⟨"o1", "xyz", "t"⟩], [], []⟩ "o1" "%" := by
  decide

/-- C8 (amended). For every owner and every query string free of the ILIKE
metacharacters % and _ and of the escape character backslash, searchNodes
performs a case-insensitive literal substring match of the query against
entity names, entity types and observation texts independently, returning
the three match sets separately (it coincides with the literal-substring
specification reading); in particular an entity named Alice is matched by
the query "ali". -/
theorem c8_search_ci_substring (db : DbState) (owner : String) :
    (∀ q, likeMetaFree q = true → searchNodes db owner q = searchNodesSpecLiteral db owner q)
    ∧ (∀ ty, EntityRow.mk owner "Alice" ty ∈ db.entities →
        EntityRow.mk owner "Alice" ty ∈ (searchNodes db owner "ali").entityNamesResult) := by
  constructor
  · intro q hq
    have hqs : ∀ s, ilikeContains q s = containsCI q s := ilike_eq_containsCI q hq
    simp only [searchNodes, searchNodesSpecLiteral, hqs]
  · intro ty hmem
    simp only [searchNodes, ownerView]
    rw [List.mem_filter]
    refine ⟨List.mem_filter.mpr ⟨hmem, ?_⟩, ?_⟩
    · show (owner == owner) = true
      simp
    · show ilikeContains "ali" "Alice" = true
      decide

/-- Witness for C8 on a concrete database: the metacharacter-free query
"tea" agrees with the literal-substring reading, and "ali" matches the
entity named Alice. -/
theorem c8_search_ci_substring_witness :
    searchNodes ⟨[⟨"o1", "Alice", "person"⟩], [], [⟨"o1", "Alice", "likes tea"⟩]⟩ "o1" "tea"
      = searchNodesSpecLiteral ⟨[⟨"o1", "Alice", "person"⟩], [], [⟨"o1", "Alice", "likes tea"⟩]⟩ "o1" "tea"
    ∧ EntityRow.mk "o1" "Alice" "person"
        ∈ (searchNodes ⟨[⟨"o1", "Alice", "person"⟩], [], [⟨"o1", "Alice", "likes tea"⟩]⟩ "o1" "ali").entityNamesResult :=
  ⟨(c8_search_ci_substring ⟨[⟨"o1", "Alice", "person"⟩], [], [⟨"o1", "Alice", "likes tea"⟩]⟩ "o1").1
      "tea" (by decide),
   (c8_search_ci_substring ⟨[⟨"o1", "Alice", "person"⟩], [], [⟨"o1", "Alice", "likes tea"⟩]⟩ "o1").2
      "person" (by decide)⟩

end MCP
